import Mathlib

/-
Verification development for the MPEG-4 box / Apple tag engine of this
repository (a TypeScript port of taglib-sharp vendored under
src/dependencies/node-taglib-sharp/mpeg4).

Shallow embedding notes, applying to the whole file:

* The source is TypeScript.  ByteVector objects are compared in the source
  with the TypeScript operators === and !==, which on class instances are
  reference (object identity) comparisons.  The embedding therefore models a
  ByteVector as its byte list together with an allocation identifier (rid);
  the operator === is modelled by tsIs, which compares rids.  Interned
  constants (class Mpeg4BoxType, mpeg4BoxType.ts) receive fixed small rids;
  every run-time allocation site receives a fresh rid (a parameter of the
  embedding function for that operation), always chosen >= 100 in theorems so
  that a fresh allocation is never identified with an interned constant, and
  distinct allocations are never identified with each other.  Byte payloads
  that are never compared with === carry rid 0.

* The classes ByteVector, File, Mpeg4BoxHeader, Mpeg4BoxFactory and the
  statics FullBox.fromTypeVersionAndFlags, FullBox.fromHeaderFileAndHandler,
  Mpeg4Box.fromType, Mpeg4Box.fromHeaderAndHandler are referenced by the
  sources but their definitions are not part of the sources.  They are
  modelled from the specification (sections 4.1, 4.2, 4.3, 9): the missing
  class-level factories create an instance of the calling class carrying the
  given header fields, with every field the visible source does not assign
  left undefined.

* TypeScript exceptions (TypeError on undefined dereference, thrown Error
  objects) are modelled with Except.  TS alpha abbreviates Except Unit alpha
  for tag operations, where only the fact of the throw matters; the parser
  model uses Except String so that exception messages can be observed by the
  catch blocks of the parse entry points.

* Strings: box payloads written by the tag engine are ASCII in every claim.
  UTF-8 and Latin-1 encoding are both modelled as the code-point list of the
  string, and decoding as the inverse, which agrees with the source for the
  ASCII inputs of all theorems below.
-/

/-- Encoding of a string to its payload bytes (ByteVector.fromString with
StringType.UTF8 or StringType.Latin1; ASCII-faithful model). -/
def encodeStr (s : String) : List Nat :=
  s.data.map Char.toNat

/-- Decoding of payload bytes back to a string (ByteVector.toString;
ASCII-faithful model). -/
def decodeStr (l : List Nat) : String :=
  String.mk (l.map Char.ofNat)

/-- StringUtils.trimStart with the NUL character, used by the text getter of
AppleAdditionalInfoBox (part_000 line 531). -/
def trimStartNul (s : String) : String :=
  String.mk (s.data.dropWhile (fun c => c = Char.ofNat 0))

/-- The toLowerCase operation on strings (ASCII-faithful model, mapping
Char.toLower over the characters). -/
def toLowerStr (s : String) : String :=
  String.mk (s.data.map Char.toLower)

/-- A TypeScript ByteVector: the byte contents together with an allocation
identifier modelling JavaScript object identity (see the file comment). -/
structure ByteVector where
  bytes : List Nat
  rid : Nat
deriving Repr, DecidableEq

/-- The TypeScript operator === on two ByteVector objects: reference
equality, modelled as equality of allocation identifiers. -/
def tsIs (a b : ByteVector) : Bool :=
  a.rid == b.rid

/-- ByteVector.fromString (allocates a new object, hence takes the rid of
the allocation). -/
def ByteVector.fromString (s : String) (r : Nat) : ByteVector :=
  ⟨encodeStr s, r⟩

/-- ByteVector.fromByteArray (allocates a new object). -/
def ByteVector.fromByteArray (l : List Nat) (r : Nat) : ByteVector :=
  ⟨l, r⟩

/-- ByteVector.makeReadOnly returns the receiver itself (it only sets a
mutability flag), so under the identity model it is the identity. -/
def ByteVector.makeReadOnly (v : ByteVector) : ByteVector :=
  v

/-- Mpeg4Utils.fixId (src/src/dependencies/node-taglib-sharp/mpeg4/mpeg4Utils.ts
lines 9-19): a 4-byte id is returned unchanged (the same object); a 3-byte id
yields a freshly allocated vector with 0xA9 prefixed; any other length yields
undefined (modelled none).  The parameter r is the rid of the allocation made
in the 3-byte branch. -/
def Mpeg4Utils.fixId (id : ByteVector) (r : Nat) : Option ByteVector :=
  if id.bytes.length = 4 then some id
  else if id.bytes.length = 3 then some ⟨0xA9 :: id.bytes, r⟩
  else none

/-- Interned box type constant: Mpeg4BoxType.Nam, the fixed form of "nam"
(bytes of the 4CC with the 0xA9 sigil prefixed), allocated once. -/
def Mpeg4BoxType.Nam : ByteVector := ⟨0xA9 :: encodeStr "nam", 1⟩

/-- Interned box type constant Mpeg4BoxType.Alb (fixed form of "alb"). -/
def Mpeg4BoxType.Alb : ByteVector := ⟨0xA9 :: encodeStr "alb", 2⟩

/-- Interned box type constant Mpeg4BoxType.Art (fixed form of "ART"). -/
def Mpeg4BoxType.Art : ByteVector := ⟨0xA9 :: encodeStr "ART", 3⟩

/-- Interned box type constant Mpeg4BoxType.Gen (fixed form of "gen"). -/
def Mpeg4BoxType.Gen : ByteVector := ⟨0xA9 :: encodeStr "gen", 4⟩

/-- Interned box type constant Mpeg4BoxType.Gnre. -/
def Mpeg4BoxType.Gnre : ByteVector := ⟨encodeStr "gnre", 5⟩

/-- Interned box type constant Mpeg4BoxType.Trkn. -/
def Mpeg4BoxType.Trkn : ByteVector := ⟨encodeStr "trkn", 6⟩

/-- Interned box type constant Mpeg4BoxType.DASH ("----"). -/
def Mpeg4BoxType.DASH : ByteVector := ⟨encodeStr "----", 7⟩

/-- Interned box type constant Mpeg4BoxType.Mean. -/
def Mpeg4BoxType.Mean : ByteVector := ⟨encodeStr "mean", 8⟩

/-- Interned box type constant Mpeg4BoxType.Name. -/
def Mpeg4BoxType.Name : ByteVector := ⟨encodeStr "name", 9⟩

/-- Interned box type constant Mpeg4BoxType.Data. -/
def Mpeg4BoxType.Data : ByteVector := ⟨encodeStr "data", 10⟩

/-- The run-time class of a box object, used to model the TypeScript
instanceof checks (a TypeScript type cast does not change the run-time
class; the gap factories are modelled as creating an instance of the calling
class, per the specification, section 9). -/
inductive BoxCls where
  | annot
  | dataBox
  | addlInfo
  | itemList
  | generic
deriving Repr, DecidableEq

/-- An Mpeg4Box object: run-time class, box type (the header type object),
FullBox version and flags (0 when the class has none), the private data
field (none models the undefined value), and the child list. -/
inductive Mpeg4Box where
  | mk : BoxCls → ByteVector → Nat → Nat → Option ByteVector → List Mpeg4Box → Mpeg4Box

/-- Run-time class of a box. -/
def Mpeg4Box.cls : Mpeg4Box → BoxCls
  | .mk c _ _ _ _ _ => c

/-- Mpeg4Box.boxType (part_000 lines 97-99): the type stored in the header. -/
def Mpeg4Box.boxType : Mpeg4Box → ByteVector
  | .mk _ t _ _ _ _ => t

/-- FullBox.version. -/
def Mpeg4Box.version : Mpeg4Box → Nat
  | .mk _ _ v _ _ _ => v

/-- FullBox.flags. -/
def Mpeg4Box.flags : Mpeg4Box → Nat
  | .mk _ _ _ f _ _ => f

/-- The private data field (AppleDataBox and AppleAdditionalInfoBox); none
models undefined (never assigned). -/
def Mpeg4Box.data : Mpeg4Box → Option ByteVector
  | .mk _ _ _ _ d _ => d

/-- Mpeg4Box.children. -/
def Mpeg4Box.children : Mpeg4Box → List Mpeg4Box
  | .mk _ _ _ _ _ ch => ch

/-- Replace the child list of a box (models assigning to children, as done
by clearChildren, addChild and the loaders). -/
def Mpeg4Box.withChildren : Mpeg4Box → List Mpeg4Box → Mpeg4Box
  | .mk c t v f d _, ch => .mk c t v f d ch

/-- Mpeg4Box.getChild (part_000 lines 164-176): returns the first child
whose boxType is === the requested type, else undefined. -/
def Mpeg4Box.getChild (b : Mpeg4Box) (t : ByteVector) : Option Mpeg4Box :=
  b.children.find? (fun c => tsIs c.boxType t)

/-- Index form of getChild, used to express the in-place mutation performed
by setDashBox through the reference that getDashAtom returns. -/
def Mpeg4Box.getChildIdx (b : Mpeg4Box) (t : ByteVector) : Option Nat :=
  b.children.findIdx? (fun c => tsIs c.boxType t)

/-- Mpeg4Box.getChildren (part_000 lines 183-201): all children whose
boxType is === the requested type; undefined (none) when there are no
matches. -/
def Mpeg4Box.getChildren (b : Mpeg4Box) (t : ByteVector) : Option (List Mpeg4Box) :=
  let boxes := b.children.filter (fun c => tsIs c.boxType t)
  if boxes.length > 0 then some boxes else none

/-- Mpeg4Box.removeChildByType (part_000 lines 234-248): a for-of loop over
the child array that splices out each matching child while iterating.  The
JavaScript iterator does not revisit the element that slides into the hole,
so the element directly after a removed one is kept without being examined.
The helper assumes each child object occurs once in the list (true for all
trees built by the tag engine), so indexOf finds the current position. -/
def Mpeg4Box.removeChildByTypeList (t : ByteVector) : List Mpeg4Box → List Mpeg4Box
  | [] => []
  | x :: rest =>
    if tsIs x.boxType t then
      match rest with
      | [] => []
      | y :: rest2 => y :: Mpeg4Box.removeChildByTypeList t rest2
    else x :: Mpeg4Box.removeChildByTypeList t rest

/-- Update the element at an index of a list, leaving other elements alone
(models mutation through a reference into the tree). -/
def updAt {α : Type} (l : List α) (i : Nat) (g : α → α) : List α :=
  match l, i with
  | [], _ => []
  | a :: r, 0 => g a :: r
  | a :: r, j + 1 => a :: updAt r j g

/-- AppleAnnotationBox.fromType (part_000 lines 571-577), with the gap
static Mpeg4Box.fromType modelled as creating an annotation-class box whose
header holds the given type object and whose child list is empty. -/
def AppleAnnotationBox.fromType (t : ByteVector) : Mpeg4Box :=
  .mk .annot t 0 0 none []

/-- AppleAdditionalInfoBox.fromTypeVersionAndFlags (part_000 lines 510-515),
with the gap static FullBox.fromTypeVersionAndFlags modelled as creating a
box of the calling class carrying the given type, version and flags; the
private data field is not assigned (undefined). -/
def AppleAdditionalInfoBox.fromTypeVersionAndFlags (t : ByteVector) (v f : Nat) : Mpeg4Box :=
  .mk .addlInfo t v f none []

/-- AppleDataBox.fromDataAndFlags (part_000 lines 619-624).  The source
creates the underlying FullBox with a freshly allocated ByteVector for the
type "data" (not the interned Mpeg4BoxType.Data), version 0 and the given
flags, and returns it after a cast.  The data argument is ignored: no
statement of the function stores it, so the private data field stays
undefined.  r is the rid of the fresh type allocation. -/
def AppleDataBox.fromDataAndFlags (_data : ByteVector) (flags : Nat) (r : Nat) : Mpeg4Box :=
  .mk .dataBox (ByteVector.fromString "data" r) 0 flags none []

/-- AppleDataBoxFlagType.ContainsText = 0x01 (enum modelled from the
specification, section 6; the enum source file is not part of src). -/
def AppleDataBoxFlagType.ContainsText : Nat := 1

/-- AppleDataBoxFlagType.ContainsData = 0x00 (specification, section 6). -/
def AppleDataBoxFlagType.ContainsData : Nat := 0

/-- Exception-carrying result of a tag operation: error () models a thrown
TypeError (dereference of undefined). -/
abbrev TS (α : Type) : Type := Except Unit α

/-- The text property read on a box object, dispatching on the run-time
class as TypeScript member access does.
For AppleDataBox (part_000 lines 646-648): when flags has the ContainsText
bit, the getter dereferences the private data field, so an unassigned data
field raises a TypeError; without the bit the getter yields undefined.
For AppleAdditionalInfoBox (part_000 lines 530-532): the getter always
dereferences the data field (TypeError when unassigned) and yields the
Latin-1 text with leading NULs trimmed.
Other classes have no text member, so the access yields undefined. -/
def Mpeg4Box.textProp (b : Mpeg4Box) : TS (Option String) :=
  match b.cls with
  | .dataBox =>
    if b.flags.land AppleDataBoxFlagType.ContainsText ≠ 0 then
      match b.data with
      | none => .error ()
      | some d => .ok (some (decodeStr d.bytes))
    else .ok none
  | .addlInfo =>
    match b.data with
    | none => .error ()
    | some d => .ok (some (trimStartNul (decodeStr d.bytes)))
  | _ => .ok none

/-- The text setter of AppleDataBox (part_000 lines 649-652): sets flags to
ContainsText and the data field to the UTF-8 bytes of the value. -/
def AppleDataBox.textSet (b : Mpeg4Box) (v : String) : Mpeg4Box :=
  match b with
  | .mk c t ver _ _ ch => .mk c t ver AppleDataBoxFlagType.ContainsText (some (ByteVector.fromString v 0)) ch

/-- The text setter of AppleAdditionalInfoBox (part_000 lines 533-535):
sets the data field to the Latin-1 bytes of the value. -/
def AppleAdditionalInfoBox.textSet (b : Mpeg4Box) (v : String) : Mpeg4Box :=
  match b with
  | .mk c t ver f _ ch => .mk c t ver f (some (ByteVector.fromString v 0)) ch

/-- Big-endian unsigned integer value of a byte list (ByteVector.toUshort,
toUint and friends for the relevant widths). -/
def beNat (l : List Nat) : Nat :=
  l.foldl (fun a b => a * 256 + b) 0

/-- ByteVector.fromUshort: the two big-endian bytes of a 16-bit value. -/
def ushortBytes (n : Nat) : List Nat :=
  [n / 256 % 256, n % 256]

/-- The expression Mpeg4Utils.fixId(x).makeReadOnly() as used throughout
AppleTag: when fixId yields undefined (id length other than 3 or 4) the
member call raises a TypeError. -/
def AppleTag.fixIdRO (t : ByteVector) (r : Nat) : TS ByteVector :=
  match Mpeg4Utils.fixId t r with
  | some f => .ok f.makeReadOnly
  | none => .error ()

/-- The inner loop of AppleTag.dataBoxesFromTypes (part_000 lines 2938-2941):
scan the requested types and report whether any of them, after fixId, is ===
the boxType of the given child. -/
def AppleTag.typeMatches (box : Mpeg4Box) (r : Nat) : List ByteVector → TS Bool
  | [] => .ok false
  | bv :: bvs => do
    let f ← AppleTag.fixIdRO bv r
    if tsIs f box.boxType then .ok true else AppleTag.typeMatches box r bvs

/-- AppleTag.dataBoxesFromTypes (part_000 lines 2933-2955): for the first
ilst child whose boxType matches one of the requested types, return its
children that are instances of AppleDataBox; when no child matches, control
falls off the end of the function, which in TypeScript returns undefined
(modelled none). -/
def AppleTag.dataBoxesFromTypes (r : Nat) (types : List ByteVector) : List Mpeg4Box → TS (Option (List Mpeg4Box))
  | [] => .ok none
  | box :: rest => do
    if ← AppleTag.typeMatches box r types then
      .ok (some (box.children.filter (fun c => c.cls == BoxCls.dataBox)))
    else AppleTag.dataBoxesFromTypes r types rest

/-- The body of the loop in AppleTag.getText (part_000 lines 3018-3026):
for every data box whose text is defined, split the text on ";" and push
each piece trimmed.  Reading the text property of a data box whose data
field was never assigned raises a TypeError. -/
def AppleTag.collectText : List Mpeg4Box → TS (List String)
  | [] => .ok []
  | b :: rest => do
    match ← b.textProp with
    | none => AppleTag.collectText rest
    | some s => do
      let tail ← AppleTag.collectText rest
      .ok ((s.splitOn ";").map String.trim ++ tail)

/-- AppleTag.getText (part_000 lines 3015-3029).  The for-of loop iterates
the result of dataBoxesFromTypeParams, so when that result is undefined the
iteration itself raises a TypeError. -/
def AppleTag.getText (st : List Mpeg4Box) (t : ByteVector) (r : Nat) : TS (List String) := do
  match ← AppleTag.dataBoxesFromTypes r [t] st with
  | none => .error ()
  | some boxes => AppleTag.collectText boxes

/-- The loop of AppleTag.setDataFromTypeAndBoxes (part_000 lines 3042-3059):
every ilst child whose boxType is === the fixed type has its children
cleared; the first such child receives the new boxes. -/
def AppleTag.setDataGo (t : ByteVector) (boxes : List Mpeg4Box) : List Mpeg4Box → Bool → List Mpeg4Box
  | [], _ => []
  | c :: rest, added =>
    if tsIs t c.boxType then
      (if added then c.withChildren [] else c.withChildren boxes) :: AppleTag.setDataGo t boxes rest true
    else c :: AppleTag.setDataGo t boxes rest added

/-- AppleTag.setDataFromTypeAndBoxes (part_000 lines 3036-3071): run the
update loop; when no child matched, append a fresh annotation box holding
the new boxes. -/
def AppleTag.setDataFromTypeAndBoxes (st : List Mpeg4Box) (t0 : ByteVector) (boxes : List Mpeg4Box) (r : Nat) : TS (List Mpeg4Box) := do
  let t ← AppleTag.fixIdRO t0 r
  let st2 := AppleTag.setDataGo t boxes st false
  if st.any (fun c => tsIs t c.boxType) then .ok st2
  else .ok (st2 ++ [(AppleAnnotationBox.fromType t).withChildren boxes])

/-- The box-building loop of AppleTag.setDataFromTypeDataCollectionAndFlags
(part_000 lines 3086-3090): one AppleDataBox.fromDataAndFlags per data
vector.  Successive allocations receive successive rids. -/
def AppleTag.buildDataBoxes (flags : Nat) (r : Nat) : List ByteVector → List Mpeg4Box
  | [] => []
  | d :: ds => AppleDataBox.fromDataAndFlags d flags r :: AppleTag.buildDataBoxes flags (r + 1) ds

/-- AppleTag.clearData (part_000 lines 3147-3149). -/
def AppleTag.clearData (st : List Mpeg4Box) (t : ByteVector) (r : Nat) : TS (List Mpeg4Box) := do
  let f ← AppleTag.fixIdRO t r
  .ok (Mpeg4Box.removeChildByTypeList f st)

/-- AppleTag.setDataFromTypeDataCollectionAndFlags (part_000 lines
3079-3093). -/
def AppleTag.setDataFromTypeDataCollectionAndFlags (st : List Mpeg4Box) (t : ByteVector) (dc : List ByteVector) (flags : Nat) (r : Nat) : TS (List Mpeg4Box) :=
  if dc.length = 0 then AppleTag.clearData st t r
  else AppleTag.setDataFromTypeAndBoxes st t (AppleTag.buildDataBoxes flags r dc) (r + dc.length)

/-- AppleTag.setDataFromTypeDataAndFlags (part_000 lines 3101-3107). -/
def AppleTag.setDataFromTypeDataAndFlags (st : List Mpeg4Box) (t : ByteVector) (d : ByteVector) (flags : Nat) (r : Nat) : TS (List Mpeg4Box) :=
  if d.bytes.length = 0 then AppleTag.clearData st t r
  else AppleTag.setDataFromTypeDataCollectionAndFlags st t [d] flags r

/-- AppleTag.setTextFromTypeAndText (part_000 lines 3130-3141): empty text
removes the children of the fixed type; otherwise the UTF-8 bytes are stored
through setDataFromTypeDataCollectionAndFlags with ContainsText flags. -/
def AppleTag.setTextFromTypeAndText (st : List Mpeg4Box) (t : ByteVector) (text : String) (r : Nat) : TS (List Mpeg4Box) :=
  if text = "" then AppleTag.clearData st t r
  else AppleTag.setDataFromTypeDataCollectionAndFlags st t [ByteVector.fromString text 0] AppleDataBoxFlagType.ContainsText r

/-- AppleTag.setTextFromTypeAndTextCollection (part_000 lines 3114-3123):
an undefined collection removes the children of the fixed type; otherwise
the collection is joined with the separator "; " and stored through
setTextFromTypeAndText. -/
def AppleTag.setTextFromTypeAndTextCollection (st : List Mpeg4Box) (t : ByteVector) (texts : Option (List String)) (r : Nat) : TS (List Mpeg4Box) :=
  match texts with
  | none => AppleTag.clearData st t r
  | some l => AppleTag.setTextFromTypeAndText st t (String.intercalate "; " l) r

/-- AppleTag.getDashAtom (part_000 lines 3290-3317): scan the ilst children
for a "----" box whose mean text is exactly meanstring and whose name text
matches namestring case-insensitively; on the first such box return the
location of its child of type Mpeg4BoxType.Data (undefined when there is
none).  The result is the pair (ilst index, child index) standing for the
object reference the source returns. -/
def AppleTag.getDashAtomGo (mean name : String) : List Mpeg4Box → Nat → TS (Option (Nat × Nat))
  | [], _ => .ok none
  | box :: rest, i =>
    if tsIs box.boxType Mpeg4BoxType.DASH then
      match box.getChild Mpeg4BoxType.Mean, box.getChild Mpeg4BoxType.Name with
      | none, _ => AppleTag.getDashAtomGo mean name rest (i + 1)
      | some _, none => AppleTag.getDashAtomGo mean name rest (i + 1)
      | some mb, some nb => do
        match ← mb.textProp with
        | none => AppleTag.getDashAtomGo mean name rest (i + 1)
        | some mt =>
          if mt ≠ mean then AppleTag.getDashAtomGo mean name rest (i + 1)
          else
            match ← nb.textProp with
            | none => .error ()
            | some nt =>
              if toLowerStr nt ≠ toLowerStr name then AppleTag.getDashAtomGo mean name rest (i + 1)
              else .ok ((box.getChildIdx Mpeg4BoxType.Data).map (fun j => (i, j)))
    else AppleTag.getDashAtomGo mean name rest (i + 1)

/-- AppleTag.getParentDashBox (part_000 lines 3360-3387): like getDashAtom
but the name comparison is case-sensitive and the result is the index of
the "----" box itself. -/
def AppleTag.getParentDashBoxGo (mean name : String) : List Mpeg4Box → Nat → TS (Option Nat)
  | [], _ => .ok none
  | box :: rest, i =>
    if tsIs box.boxType Mpeg4BoxType.DASH then
      match box.getChild Mpeg4BoxType.Mean, box.getChild Mpeg4BoxType.Name with
      | none, _ => AppleTag.getParentDashBoxGo mean name rest (i + 1)
      | some _, none => AppleTag.getParentDashBoxGo mean name rest (i + 1)
      | some mb, some nb => do
        match ← mb.textProp with
        | none => AppleTag.getParentDashBoxGo mean name rest (i + 1)
        | some mt =>
          if mt ≠ mean then AppleTag.getParentDashBoxGo mean name rest (i + 1)
          else
            match ← nb.textProp with
            | none => AppleTag.getParentDashBoxGo mean name rest (i + 1)
            | some nt =>
              if nt ≠ name then AppleTag.getParentDashBoxGo mean name rest (i + 1)
              else .ok (some i)
    else AppleTag.getParentDashBoxGo mean name rest (i + 1)

/-- AppleTag.setDashBox (part_000 lines 3204-3232).  When getDashAtom found
a data box and the new value is empty, the parent "----" box is looked up
again (case-sensitively) and removed after clearing its children; a missing
parent makes the clearChildren call raise a TypeError.  When a data box was
found and the value is non-empty, its text is overwritten in place.
Otherwise a new "----" annotation with mean, name and data children is
appended; the data child is built by AppleDataBox.fromDataAndFlags (fresh
type allocation rid r) and its text is assigned afterwards. -/
def AppleTag.setDashBox (st : List Mpeg4Box) (mean name datastring : String) (r : Nat) : TS (List Mpeg4Box) := do
  let dloc ← AppleTag.getDashAtomGo mean name st 0
  if dloc.isSome && (datastring == "") then do
    let pd ← AppleTag.getParentDashBoxGo mean name st 0
    match pd with
    | none => .error ()
    | some i =>
      let st2 := updAt st i (fun b => b.withChildren [])
      .ok (st2.eraseIdx i)
  else
    match dloc with
    | some (i, j) =>
      .ok (updAt st i (fun ann => ann.withChildren (updAt ann.children j (fun db => AppleDataBox.textSet db datastring))))
    | none =>
      let amean := AppleAdditionalInfoBox.textSet (AppleAdditionalInfoBox.fromTypeVersionAndFlags Mpeg4BoxType.Mean 0 1) mean
      let aname := AppleAdditionalInfoBox.textSet (AppleAdditionalInfoBox.fromTypeVersionAndFlags Mpeg4BoxType.Name 0 1) name
      let adata := AppleDataBox.textSet (AppleDataBox.fromDataAndFlags Mpeg4BoxType.Data 1 r) datastring
      let whole := (AppleAnnotationBox.fromType Mpeg4BoxType.DASH).withChildren [amean, aname, adata]
      .ok (st ++ [whole])

/-- The loop of the track getter (part_000 lines 2386-2392): the first data
box with ContainsData flags has its data field dereferenced for the length
check (TypeError when the field was never assigned); a payload of at least
4 bytes yields the big-endian 16-bit value at offset 2. -/
def AppleTag.trackScan : List Mpeg4Box → TS Nat
  | [] => .ok 0
  | b :: rest =>
    if b.flags == AppleDataBoxFlagType.ContainsData then
      match b.data with
      | none => .error ()
      | some d =>
        if d.bytes.length ≥ 4 then .ok (beNat ((d.bytes.drop 2).take 2))
        else AppleTag.trackScan rest
    else AppleTag.trackScan rest

/-- The loop of the trackCount getter (part_000 lines 2415-2421): as the
track loop but requiring 6 bytes and reading offset 4. -/
def AppleTag.trackCountScan : List Mpeg4Box → TS Nat
  | [] => .ok 0
  | b :: rest =>
    if b.flags == AppleDataBoxFlagType.ContainsData then
      match b.data with
      | none => .error ()
      | some d =>
        if d.bytes.length ≥ 6 then .ok (beNat ((d.bytes.drop 4).take 2))
        else AppleTag.trackCountScan rest
    else AppleTag.trackCountScan rest

/-- The track getter (part_000 lines 2385-2393).  The for-of loop iterates
the result of dataBoxesFromTypeParams(Trkn); when no trkn child exists that
result is undefined and the iteration raises a TypeError. -/
def AppleTag.trackGet (st : List Mpeg4Box) (r : Nat) : TS Nat := do
  match ← AppleTag.dataBoxesFromTypes r [Mpeg4BoxType.Trkn] st with
  | none => .error ()
  | some boxes => AppleTag.trackScan boxes

/-- The trackCount getter (part_000 lines 2414-2422). -/
def AppleTag.trackCountGet (st : List Mpeg4Box) (r : Nat) : TS Nat := do
  match ← AppleTag.dataBoxesFromTypes r [Mpeg4BoxType.Trkn] st with
  | none => .error ()
  | some boxes => AppleTag.trackCountScan boxes

/-- The track setter (part_000 lines 2394-2409): reads trackCount, clears
the trkn children when both values are zero, otherwise stores the packed
payload 0, v, count, 0 (16-bit big-endian fields) with ContainsData flags. -/
def AppleTag.setTrack (st : List Mpeg4Box) (v : Nat) (r : Nat) : TS (List Mpeg4Box) := do
  let count ← AppleTag.trackCountGet st r
  if v = 0 ∧ count = 0 then AppleTag.clearData st Mpeg4BoxType.Trkn (r + 1)
  else
    let d := ByteVector.fromByteArray (ushortBytes 0 ++ ushortBytes v ++ ushortBytes count ++ ushortBytes 0) 0
    AppleTag.setDataFromTypeDataAndFlags st Mpeg4BoxType.Trkn d AppleDataBoxFlagType.ContainsData (r + 1)

/-- The trackCount setter (part_000 lines 2423-2437): reads track, clears
the trkn children when both values are zero, otherwise stores the packed
payload 0, track, v, 0 with ContainsData flags. -/
def AppleTag.setTrackCount (st : List Mpeg4Box) (v : Nat) (r : Nat) : TS (List Mpeg4Box) := do
  let localTrack ← AppleTag.trackGet st r
  if v = 0 ∧ localTrack = 0 then AppleTag.clearData st Mpeg4BoxType.Trkn (r + 1)
  else
    let d := ByteVector.fromByteArray (ushortBytes 0 ++ ushortBytes localTrack ++ ushortBytes v ++ ushortBytes 0) 0
    AppleTag.setDataFromTypeDataAndFlags st Mpeg4BoxType.Trkn d AppleDataBoxFlagType.ContainsData (r + 1)

/-- Modelled from the spec: the Genres helper (imported from outside the
mpeg4 sources) translating an ID3v1 genre index to its name; the
specification fixes the table as the ID3 genre table with index 13 = Pop
(section 8, scenario 4). -/
def Genres.audioGenres : List String :=
  ["Blues", "Classic Rock", "Country", "Dance", "Disco", "Funk", "Grunge",
   "Hip-Hop", "Jazz", "Metal", "New Age", "Oldies", "Other", "Pop", "R&B",
   "Rap", "Reggae", "Rock", "Techno", "Industrial", "Alternative", "Ska",
   "Death Metal", "Pranks", "Soundtrack", "Euro-Techno", "Ambient",
   "Trip-Hop", "Vocal", "Jazz+Funk", "Fusion", "Trance", "Classical",
   "Instrumental", "Acid", "House", "Game", "Sound Clip", "Gospel", "Noise",
   "Alternative Rock", "Bass", "Soul", "Punk", "Space", "Meditative",
   "Instrumental Pop", "Instrumental Rock", "Ethnic", "Gothic", "Darkwave",
   "Techno-Industrial", "Electronic", "Pop-Folk", "Eurodance", "Dream",
   "Southern Rock", "Comedy", "Cult", "Gangsta", "Top 40", "Christian Rap",
   "Pop/Funk", "Jungle", "Native American", "Cabaret", "New Wave",
   "Psychedelic", "Rave", "Showtunes", "Trailer", "Lo-Fi", "Tribal",
   "Acid Punk", "Acid Jazz", "Polka", "Retro", "Musical", "Rock & Roll",
   "Hard Rock"]

/-- Modelled from the spec: Genres.indexToAudio looks the index up in the
ID3 genre table, yielding undefined outside the table. -/
def Genres.indexToAudio (i : Nat) (_allowParenthesis : Bool) : Option String :=
  Genres.audioGenres[i]?

/-- The gnre loop of the genres getter (part_000 lines 2329-2348): the
first gnre data box with ContainsData flags whose 16-bit big-endian value
is non-zero and whose value minus one resolves in the ID3 genre table
yields a singleton list. -/
def AppleTag.genreScan : List Mpeg4Box → TS (List String)
  | [] => .ok []
  | b :: rest =>
    if b.flags == AppleDataBoxFlagType.ContainsData then
      match b.data with
      | none => .error ()
      | some d =>
        let index := beNat (d.bytes.take 2)
        if index = 0 then AppleTag.genreScan rest
        else
          match Genres.indexToAudio (index - 1) false with
          | none => AppleTag.genreScan rest
          | some s => .ok [s]
    else AppleTag.genreScan rest

/-- The genres getter (part_000 lines 2323-2351): first getText on the
"(c)gen" type; only when that list is empty is the gnre fallback read. -/
def AppleTag.genresGet (st : List Mpeg4Box) (r : Nat) : TS (List String) := do
  let text ← AppleTag.getText st Mpeg4BoxType.Gen r
  if text.length > 0 then .ok text
  else do
    match ← AppleTag.dataBoxesFromTypes (r + 1) [Mpeg4BoxType.Gnre] st with
    | none => .error ()
    | some boxes => AppleTag.genreScan boxes

/-- The genres setter (part_000 lines 2352-2355): clear the gnre children,
then store the collection under the "(c)gen" type. -/
def AppleTag.genresSet (st : List Mpeg4Box) (v : List String) (r : Nat) : TS (List Mpeg4Box) := do
  let st1 ← AppleTag.clearData st Mpeg4BoxType.Gnre r
  AppleTag.setTextFromTypeAndTextCollection st1 Mpeg4BoxType.Gen (some v) (r + 1)

/-- The update loop of IsoChunkOffsetBox.renderUsingSizeDifference
(part_000 lines 1381-1389): every table entry at least the threshold is
shifted by the size difference; entries below it are untouched.  Offsets
and the difference are JavaScript numbers, modelled as integers. -/
def IsoChunkOffsetBox.updateOffsets (offsets : List Int) (sizeDifference after : Int) : List Int :=
  offsets.map (fun o => if after ≤ o then o + sizeDifference else o)

/-- The update loop of IsoChunkLargeOffsetBox.renderUsingSizeDifference
(part_000 lines 1292-1300), identical to the 32-bit variant. -/
def IsoChunkLargeOffsetBox.updateOffsets (offsets : List Int) (sizeDifference after : Int) : List Int :=
  offsets.map (fun o => if after ≤ o then o + sizeDifference else o)

/-- Mpeg4Box.loadChildren (part_000 lines 294-324), abstracted over the
declared total box size of the box starting at each file position (the
header decoding performed by the factory): iterate while position is below
the end, stop at a zero-size child without appending it, otherwise append
the child and step by its size.  Children are recorded as pairs of start
position and declared size. -/
def Mpeg4Box.loadChildrenSizes (szAt : Nat → Nat) (pos e : Nat) : List (Nat × Nat) :=
  if h : pos < e then
    if hs : szAt pos = 0 then []
    else (pos, szAt pos) :: Mpeg4Box.loadChildrenSizes szAt (pos + szAt pos) e
  else []
termination_by e - pos
decreasing_by simp_wf; omega

/-- Read n bytes at a position; undefined (error) past the end of the file
(specification, section 4.1: out-of-range reads are errors). -/
def readBytes (file : List Nat) (pos n : Nat) : Option (List Nat) :=
  if pos + n ≤ file.length then some ((file.drop pos).take n) else none

/-- The 4CC byte lists the parser compares against. -/
def ftypBytes : List Nat := encodeStr "ftyp"

/-- The 4CC bytes of moov. -/
def moovBytes : List Nat := encodeStr "moov"

/-- The 4CC bytes of mdia. -/
def mdiaBytes : List Nat := encodeStr "mdia"

/-- The 4CC bytes of minf. -/
def minfBytes : List Nat := encodeStr "minf"

/-- The 4CC bytes of stbl. -/
def stblBytes : List Nat := encodeStr "stbl"

/-- The 4CC bytes of trak. -/
def trakBytes : List Nat := encodeStr "trak"

/-- The 4CC bytes of udta. -/
def udtaBytes : List Nat := encodeStr "udta"

/-- The 4CC bytes of mdat. -/
def mdatBytes : List Nat := encodeStr "mdat"

/-- The 4CC bytes of stsd. -/
def stsdBytes : List Nat := encodeStr "stsd"

/-- The 4CC bytes of hdlr. -/
def hdlrBytes : List Nat := encodeStr "hdlr"

/-- The 4CC bytes of mvhd. -/
def mvhdBytes : List Nat := encodeStr "mvhd"

/-- The 4CC bytes of stco. -/
def stcoBytes : List Nat := encodeStr "stco"

/-- The 4CC bytes of co64. -/
def co64Bytes : List Nat := encodeStr "co64"

/-- The 4CC bytes of uuid. -/
def uuidBytes : List Nat := encodeStr "uuid"

/-- A decoded box header: header size, declared total box size, type bytes. -/
structure Mpeg4BoxHeader where
  headerSize : Nat
  totalBoxSize : Nat
  typeBytes : List Nat
deriving Repr, DecidableEq

/-- The uuid tail of header decoding (specification, section 4.3): a uuid
type reads 16 further bytes of extended type and adds them to the header
size. -/
def Mpeg4BoxHeader.finishUuid (file : List Nat) (pos hsize total : Nat) (t : List Nat) : Except String Mpeg4BoxHeader :=
  if t = uuidBytes then
    match readBytes file (pos + hsize) 16 with
    | none => .error "Cannot read box header at end of file."
    | some _ => .ok ⟨hsize + 16, total, t⟩
  else .ok ⟨hsize, total, t⟩

/-- Modelled from the spec: Mpeg4BoxHeader.fromFileAndPosition (the header
class is not part of src; specification, section 4.3).  Read the 32-bit
size and the 4-byte type; size 1 switches to the 64-bit largesize with a
16-byte header; size 0 extends to the end of the file; a uuid type adds 16
bytes of extended type to the header size.  Reads past the end of the file
raise. -/
def Mpeg4BoxHeader.fromFileAndPosition (file : List Nat) (pos : Nat) : Except String Mpeg4BoxHeader :=
  match readBytes file pos 8 with
  | none => .error "Cannot read box header at end of file."
  | some hd =>
    if beNat (hd.take 4) = 1 then
      match readBytes file (pos + 8) 8 with
      | none => .error "Cannot read box header at end of file."
      | some ls => Mpeg4BoxHeader.finishUuid file pos 16 (beNat ls) (hd.drop 4)
    else if beNat (hd.take 4) = 0 then Mpeg4BoxHeader.finishUuid file pos 8 (file.length - pos) (hd.drop 4)
    else Mpeg4BoxHeader.finishUuid file pos 8 (beNat (hd.take 4)) (hd.drop 4)

theorem Mpeg4BoxHeader.finishUuid_headerSize {file : List Nat} {pos hsize total : Nat} {t : List Nat} {h : Mpeg4BoxHeader}
    (hd : Mpeg4BoxHeader.finishUuid file pos hsize total t = .ok h) : hsize ≤ h.headerSize := by
  unfold Mpeg4BoxHeader.finishUuid at hd
  split at hd
  · split at hd
    · exact absurd hd (by simp)
    · injection hd with hd; subst hd; simp
  · injection hd with hd; subst hd; simp

theorem Mpeg4BoxHeader.decode_pos_le {file : List Nat} {pos : Nat} {h : Mpeg4BoxHeader}
    (hd : Mpeg4BoxHeader.fromFileAndPosition file pos = .ok h) : pos + 8 ≤ file.length := by
  unfold Mpeg4BoxHeader.fromFileAndPosition readBytes at hd
  split at hd
  · exact absurd hd (by simp)
  · next heq =>
    by_contra hc
    simp [hc] at heq

theorem Mpeg4BoxHeader.decode_headerSize {file : List Nat} {pos : Nat} {h : Mpeg4BoxHeader}
    (hd : Mpeg4BoxHeader.fromFileAndPosition file pos = .ok h) : 8 ≤ h.headerSize := by
  unfold Mpeg4BoxHeader.fromFileAndPosition at hd
  split at hd
  · exact absurd hd (by simp)
  · split at hd
    · split at hd
      · exact absurd hd (by simp)
      · have := Mpeg4BoxHeader.finishUuid_headerSize hd; omega
    · split at hd
      · have := Mpeg4BoxHeader.finishUuid_headerSize hd; omega
      · have := Mpeg4BoxHeader.finishUuid_headerSize hd; omega

/-- The results a parse traversal accumulates (the private fields of
Mpeg4FileParser that the loops assign, part_001 lines 21-61; boxes are
recorded by their file position, box materialisation through the factory
being outside the sources). -/
structure ParseState where
  moovTree : Option (List Nat) := none
  udtaTree : Option (List Nat) := none
  udtaBoxes : List (Nat × List Nat) := []
  stsdBoxes : List Nat := []
  stcoBoxes : List Nat := []
  mvhdBox : Option Nat := none
  mdatStart : Int := -1
  mdatEnd : Int := -1
deriving Repr, DecidableEq

/-- Mpeg4FileParser.parseBoxHeadersFromStartEndAndParents (part_001 lines
233-268): iterate from the start, decoding a header at each position; the
first moov box records the parent chain and is descended into, the known
containers are descended into, the first udta records its chain, mdat
records its bounds; after the branch a zero total size ends the loop, else
the position steps by the total size. -/
def Mpeg4FileParser.parseBoxHeadersLoop (file : List Nat) (e pos : Nat) (parents : List Nat) (st : ParseState) : Except String ParseState :=
  if pos < e then
    match hdec : Mpeg4BoxHeader.fromFileAndPosition file pos with
    | .error m => .error m
    | .ok h =>
      let step : Except String ParseState :=
        if st.moovTree = none ∧ h.typeBytes = moovBytes then
          Mpeg4FileParser.parseBoxHeadersLoop file (h.totalBoxSize + pos) (h.headerSize + pos) (parents ++ [pos])
            {st with moovTree := some (parents ++ [pos])}
        else if h.typeBytes = mdiaBytes ∨ h.typeBytes = minfBytes ∨ h.typeBytes = stblBytes ∨ h.typeBytes = trakBytes then
          Mpeg4FileParser.parseBoxHeadersLoop file (h.totalBoxSize + pos) (h.headerSize + pos) (parents ++ [pos]) st
        else if st.udtaTree = none ∧ h.typeBytes = udtaBytes then
          .ok {st with udtaTree := some (parents ++ [pos])}
        else if h.typeBytes = mdatBytes then
          .ok {st with mdatStart := pos, mdatEnd := pos + h.totalBoxSize}
        else .ok st
      match step with
      | .error m => .error m
      | .ok st2 =>
        if h.totalBoxSize = 0 then .ok st2
        else Mpeg4FileParser.parseBoxHeadersLoop file e (pos + h.totalBoxSize) parents st2
  else .ok st
termination_by file.length + 1 - pos
decreasing_by
  all_goals
    have h8 := Mpeg4BoxHeader.decode_pos_le hdec
    have hh := Mpeg4BoxHeader.decode_headerSize hdec
    simp_wf
    omega

/-- Mpeg4FileParser.parseTagFromStartEndAndParents (part_001 lines 276-316):
as the header loop, but every moov is descended into and every udta is
materialised and recorded together with its parent chain. -/
def Mpeg4FileParser.parseTagLoop (file : List Nat) (e pos : Nat) (parents : List Nat) (st : ParseState) : Except String ParseState :=
  if pos < e then
    match hdec : Mpeg4BoxHeader.fromFileAndPosition file pos with
    | .error m => .error m
    | .ok h =>
      let step : Except String ParseState :=
        if h.typeBytes = moovBytes then
          Mpeg4FileParser.parseTagLoop file (h.totalBoxSize + pos) (h.headerSize + pos) (parents ++ [pos]) st
        else if h.typeBytes = mdiaBytes ∨ h.typeBytes = minfBytes ∨ h.typeBytes = stblBytes ∨ h.typeBytes = trakBytes then
          Mpeg4FileParser.parseTagLoop file (h.totalBoxSize + pos) (h.headerSize + pos) (parents ++ [pos]) st
        else if h.typeBytes = udtaBytes then
          .ok {st with udtaBoxes := st.udtaBoxes ++ [(pos, parents ++ [pos])]}
        else if h.typeBytes = mdatBytes then
          .ok {st with mdatStart := pos, mdatEnd := pos + h.totalBoxSize}
        else .ok st
      match step with
      | .error m => .error m
      | .ok st2 =>
        if h.totalBoxSize = 0 then .ok st2
        else Mpeg4FileParser.parseTagLoop file e (pos + h.totalBoxSize) parents st2
  else .ok st
termination_by file.length + 1 - pos
decreasing_by
  all_goals
    have h8 := Mpeg4BoxHeader.decode_pos_le hdec
    have hh := Mpeg4BoxHeader.decode_headerSize hdec
    simp_wf
    omega

/-- Mpeg4FileParser.parseTagAndPropertiesFromStartEndHandlerAndParents
(part_001 lines 325-382): as the tag loop, additionally recording stsd and
the first mvhd, and replacing the handler (carried as the position of the
hdlr box) for the following iterations when a hdlr box is met. -/
def Mpeg4FileParser.parseTagAndPropsLoop (file : List Nat) (e pos : Nat) (handler : Option Nat) (parents : List Nat) (st : ParseState) : Except String ParseState :=
  if pos < e then
    match hdec : Mpeg4BoxHeader.fromFileAndPosition file pos with
    | .error m => .error m
    | .ok h =>
      let step : Except String (Option Nat × ParseState) :=
        if h.typeBytes = moovBytes then
          (Mpeg4FileParser.parseTagAndPropsLoop file (h.totalBoxSize + pos) (h.headerSize + pos) handler (parents ++ [pos]) st).map (fun s => (handler, s))
        else if h.typeBytes = mdiaBytes ∨ h.typeBytes = minfBytes ∨ h.typeBytes = stblBytes ∨ h.typeBytes = trakBytes then
          (Mpeg4FileParser.parseTagAndPropsLoop file (h.totalBoxSize + pos) (h.headerSize + pos) handler (parents ++ [pos]) st).map (fun s => (handler, s))
        else if h.typeBytes = stsdBytes then
          .ok (handler, {st with stsdBoxes := st.stsdBoxes ++ [pos]})
        else if h.typeBytes = hdlrBytes then
          .ok (some pos, st)
        else if st.mvhdBox = none ∧ h.typeBytes = mvhdBytes then
          .ok (handler, {st with mvhdBox := some pos})
        else if h.typeBytes = udtaBytes then
          .ok (handler, {st with udtaBoxes := st.udtaBoxes ++ [(pos, parents ++ [pos])]})
        else if h.typeBytes = mdatBytes then
          .ok (handler, {st with mdatStart := pos, mdatEnd := pos + h.totalBoxSize})
        else .ok (handler, st)
      match step with
      | .error m => .error m
      | .ok (handler2, st2) =>
        if h.totalBoxSize = 0 then .ok st2
        else Mpeg4FileParser.parseTagAndPropsLoop file e (pos + h.totalBoxSize) handler2 parents st2
  else .ok st
termination_by file.length + 1 - pos
decreasing_by
  all_goals
    have h8 := Mpeg4BoxHeader.decode_pos_le hdec
    have hh := Mpeg4BoxHeader.decode_headerSize hdec
    simp_wf
    omega

/-- Mpeg4FileParser.ParseChunkOffsetsFromStartAndEnd (part_001 lines
389-416): moov and the known containers are descended into (the source
lists moov redundantly in the second branch, which is unreachable), stco
and co64 boxes are recorded, mdat records its bounds. -/
def Mpeg4FileParser.parseChunkOffsetsLoop (file : List Nat) (e pos : Nat) (st : ParseState) : Except String ParseState :=
  if pos < e then
    match hdec : Mpeg4BoxHeader.fromFileAndPosition file pos with
    | .error m => .error m
    | .ok h =>
      let step : Except String ParseState :=
        if h.typeBytes = moovBytes then
          Mpeg4FileParser.parseChunkOffsetsLoop file (h.totalBoxSize + pos) (h.headerSize + pos) st
        else if h.typeBytes = moovBytes ∨ h.typeBytes = mdiaBytes ∨ h.typeBytes = minfBytes ∨ h.typeBytes = stblBytes ∨ h.typeBytes = trakBytes then
          Mpeg4FileParser.parseChunkOffsetsLoop file (h.totalBoxSize + pos) (h.headerSize + pos) st
        else if h.typeBytes = stcoBytes ∨ h.typeBytes = co64Bytes then
          .ok {st with stcoBoxes := st.stcoBoxes ++ [pos]}
        else if h.typeBytes = mdatBytes then
          .ok {st with mdatStart := pos, mdatEnd := pos + h.totalBoxSize}
        else .ok st
      match step with
      | .error m => .error m
      | .ok st2 =>
        if h.totalBoxSize = 0 then .ok st2
        else Mpeg4FileParser.parseChunkOffsetsLoop file e (pos + h.totalBoxSize) st2
  else .ok st
termination_by file.length + 1 - pos
decreasing_by
  all_goals
    have h8 := Mpeg4BoxHeader.decode_pos_le hdec
    have hh := Mpeg4BoxHeader.decode_headerSize hdec
    simp_wf
    omega

/-- The file abstraction the parser holds (specification, section 4.2):
byte contents plus the corruption mark.  markAsCorrupt receives an optional
reason because the source may pass undefined. -/
structure TFile where
  bytes : List Nat
  corrupt : Bool := false
  corruptReason : Option String := none
deriving Repr, DecidableEq

/-- Modelled from the spec: File.markAsCorrupt (section 4.2) flags the file
and stores the reason it was given, which may be undefined. -/
def TFile.markAsCorrupt (f : TFile) (r : Option String) : TFile :=
  {f with corrupt := true, corruptReason := r}

/-- A constructed parser: the file and the first header.  Construction can
only fail by throwing, in which case no instance exists at all. -/
structure ParserCtx where
  file : TFile
  firstHeader : Mpeg4BoxHeader
deriving Repr, DecidableEq

/-- The Mpeg4FileParser constructor (part_001 lines 67-77): decode the
header at position 0 and throw unless its type reads "ftyp" (a string
comparison on the decoded type).  A decoding failure also propagates out of
the constructor.  On a throw no parser object is produced. -/
def Mpeg4FileParser.mkParser (file : TFile) : Except String ParserCtx :=
  match Mpeg4BoxHeader.fromFileAndPosition file.bytes 0 with
  | .error m => .error m
  | .ok h =>
    if decodeStr h.typeBytes ≠ "ftyp" then .error "File does not start with ftyp box."
    else .ok ⟨file, h⟩

/-- The body of parseBoxHeaders (part_001 line 179): reset the fields and
run the header loop from the end of the first box to the file length. -/
def Mpeg4FileParser.parseBoxHeadersBody (ctx : ParserCtx) : Except String ParseState :=
  Mpeg4FileParser.parseBoxHeadersLoop ctx.file.bytes ctx.file.bytes.length ctx.firstHeader.totalBoxSize [] {}

/-- The body of parseTag (part_001 line 191). -/
def Mpeg4FileParser.parseTagBody (ctx : ParserCtx) : Except String ParseState :=
  Mpeg4FileParser.parseTagLoop ctx.file.bytes ctx.file.bytes.length ctx.firstHeader.totalBoxSize [] {}

/-- The body of parseTagAndProperties (part_001 lines 203-208). -/
def Mpeg4FileParser.parseTagAndPropsBody (ctx : ParserCtx) : Except String ParseState :=
  Mpeg4FileParser.parseTagAndPropsLoop ctx.file.bytes ctx.file.bytes.length ctx.firstHeader.totalBoxSize none [] {}

/-- The body of parseChunkOffsets (part_001 line 220). -/
def Mpeg4FileParser.parseChunkOffsetsBody (ctx : ParserCtx) : Except String ParseState :=
  Mpeg4FileParser.parseChunkOffsetsLoop ctx.file.bytes ctx.file.bytes.length ctx.firstHeader.totalBoxSize {}

/-- Mpeg4FileParser.parseBoxHeaders (part_001 lines 176-183): every
exception from the body is caught; the file is marked corrupt with the
message of the exception (e.message); nothing is rethrown.  On a catch the
fields keep no decoded results (the model returns the reset state). -/
def Mpeg4FileParser.parseBoxHeaders (ctx : ParserCtx) : ParserCtx × ParseState :=
  match Mpeg4FileParser.parseBoxHeadersBody ctx with
  | .ok st => (ctx, st)
  | .error m => ({ctx with file := ctx.file.markAsCorrupt (some m)}, {})

/-- Mpeg4FileParser.parseTag (part_001 lines 188-195): as parseBoxHeaders. -/
def Mpeg4FileParser.parseTag (ctx : ParserCtx) : ParserCtx × ParseState :=
  match Mpeg4FileParser.parseTagBody ctx with
  | .ok st => (ctx, st)
  | .error m => ({ctx with file := ctx.file.markAsCorrupt (some m)}, {})

/-- Mpeg4FileParser.parseTagAndProperties (part_001 lines 200-212): as
parseBoxHeaders. -/
def Mpeg4FileParser.parseTagAndProperties (ctx : ParserCtx) : ParserCtx × ParseState :=
  match Mpeg4FileParser.parseTagAndPropsBody ctx with
  | .ok st => (ctx, st)
  | .error m => ({ctx with file := ctx.file.markAsCorrupt (some m)}, {})

/-- Mpeg4FileParser.parseChunkOffsets (part_001 lines 217-224): the catch
block reads e.Message with a capital M (line 222), a property that does not
exist on a JavaScript Error object, so the reason handed to markAsCorrupt
is undefined and the message of the exception is discarded; nothing is
rethrown. -/
def Mpeg4FileParser.parseChunkOffsets (ctx : ParserCtx) : ParserCtx × ParseState :=
  match Mpeg4FileParser.parseChunkOffsetsBody ctx with
  | .ok st => (ctx, st)
  | .error _ => ({ctx with file := ctx.file.markAsCorrupt none}, {})

/-
Claim theorems.  Identity conventions: interned Mpeg4BoxType constants
carry rids 1-10; explicitly constructed test boxes use rids from 150; rid
arguments passed to tag operations start at 100 or 200 so that every fresh
run-time allocation is distinct from every other object in scope.
-/

/-- C1.  The claim states that setting a text field and reading it back
returns the value.  In the code the data boxes that carry the stored text
are created by AppleDataBox.fromDataAndFlags, which never stores its data
argument, so the boxes carry ContainsText flags with an undefined data
field; the getText loop then evaluates the text property, which
dereferences the undefined field and throws a TypeError.  Concretely:
writing the title type with the value Main Title and reading the same type
back throws instead of returning the value, and the same happens for the
multi-valued write through setTextFromTypeAndTextCollection. -/
theorem claim_C1_setText_then_getText_throws :
    (AppleTag.setTextFromTypeAndText [] Mpeg4BoxType.Nam "Main Title" 100).bind
      (fun st => AppleTag.getText st Mpeg4BoxType.Nam 200) = .error ()
    ∧ (AppleTag.setTextFromTypeAndTextCollection [] Mpeg4BoxType.Art (some ["a", "b"]) 100).bind
      (fun st => AppleTag.getText st Mpeg4BoxType.Art 200) = .error () := by
  constructor <;> rfl

/-- C2 input: the ilst produced by storing the value abc in the dash atom
with the MusicBrainz Track Id name. -/
def c2Stored : Except Unit (List Mpeg4Box) :=
  AppleTag.setDashBox [] "com.apple.iTunes" "MusicBrainz Track Id" "abc" 100

/-- C2 expected first annotation: the dash box created by the first
setDashBox call. -/
def c2Ann1 : Mpeg4Box :=
  (AppleAnnotationBox.fromType Mpeg4BoxType.DASH).withChildren
    [AppleAdditionalInfoBox.textSet (AppleAdditionalInfoBox.fromTypeVersionAndFlags Mpeg4BoxType.Mean 0 1) "com.apple.iTunes",
     AppleAdditionalInfoBox.textSet (AppleAdditionalInfoBox.fromTypeVersionAndFlags Mpeg4BoxType.Name 0 1) "MusicBrainz Track Id",
     AppleDataBox.textSet (AppleDataBox.fromDataAndFlags Mpeg4BoxType.Data 1 100) "abc"]

/-- C2 second annotation: the duplicate dash box with empty data text that
the second setDashBox call appends. -/
def c2Ann2 : Mpeg4Box :=
  (AppleAnnotationBox.fromType Mpeg4BoxType.DASH).withChildren
    [AppleAdditionalInfoBox.textSet (AppleAdditionalInfoBox.fromTypeVersionAndFlags Mpeg4BoxType.Mean 0 1) "com.apple.iTunes",
     AppleAdditionalInfoBox.textSet (AppleAdditionalInfoBox.fromTypeVersionAndFlags Mpeg4BoxType.Name 0 1) "MusicBrainz Track Id",
     AppleDataBox.textSet (AppleDataBox.fromDataAndFlags Mpeg4BoxType.Data 1 200) ""]

/-- C2.  The claim states that setDashBox with an existing matching atom
and an empty value removes the annotation, and with a non-empty value
overwrites its data payload.  In the code the data child of a dash atom is
looked up with getChild and the === comparison, but the type object of a
data child created by AppleDataBox.fromDataAndFlags is a fresh allocation,
never the interned Mpeg4BoxType.Data, so getDashAtom never finds the data
child of an atom this very method created: instead of removing (or
overwriting), setDashBox takes the creation branch and appends a duplicate
annotation, leaving the first untouched.  Concretely: storing abc and then
storing the empty value yields two annotations, the original one still
holding abc and a new one holding empty text. -/
theorem claim_C2_setDashBox_appends_instead_of_removing :
    c2Stored = .ok [c2Ann1]
    ∧ c2Stored.bind
      (fun st => AppleTag.setDashBox st "com.apple.iTunes" "MusicBrainz Track Id" "" 200)
      = .ok [c2Ann1, c2Ann2] := by
  constructor <;> rfl

/-- C3 counterexample.  The claim states that every box-type comparison of
the tag and tree operations is byte-wise on the 4-byte canonical form, so
two types with equal bytes always match.  Taking the data box created by
AppleDataBox.fromDataAndFlags (whose type is a fresh ByteVector holding the
bytes of data) as the only child of an annotation box, the bytes of its
type equal the bytes of the interned Mpeg4BoxType.Data, yet getChild with
Mpeg4BoxType.Data finds nothing, because the source compares with === and
the two equal-byte vectors are distinct objects. -/
theorem claim_C3_counterexample :
    (AppleDataBox.fromDataAndFlags (ByteVector.fromString "x" 0) 1 101).boxType.bytes
      = Mpeg4BoxType.Data.bytes
    ∧ Mpeg4Box.getChild
        ((AppleAnnotationBox.fromType Mpeg4BoxType.DASH).withChildren
          [AppleDataBox.fromDataAndFlags (ByteVector.fromString "x" 0) 1 101])
        Mpeg4BoxType.Data = none := by
  constructor <;> rfl

/-- Helper for C3: every child returned by getChildren has a type object
identical (same allocation) to the requested one. -/
theorem Mpeg4Box.getChildren_some_rid (b : Mpeg4Box) (t : ByteVector) (l : List Mpeg4Box)
    (h : Mpeg4Box.getChildren b t = some l) : ∀ c ∈ l, c.boxType.rid = t.rid := by
  simp only [Mpeg4Box.getChildren] at h
  split at h
  · injection h with h
    subst h
    intro c hc
    have := (List.mem_filter.mp hc).2
    simpa [tsIs] using this
  · exact absurd h (by simp)

/-- Helper for C3: when no child carries the very type object searched
for, getChildren yields undefined, whatever the byte contents of the
child types are. -/
theorem Mpeg4Box.getChildren_none (b : Mpeg4Box) (t : ByteVector)
    (h : ∀ c ∈ b.children, c.boxType.rid ≠ t.rid) : Mpeg4Box.getChildren b t = none := by
  have hf : b.children.filter (fun c => tsIs c.boxType t) = [] := by
    apply List.filter_eq_nil_iff.mpr
    intro c hc
    simpa [tsIs] using h c hc
  simp [Mpeg4Box.getChildren, hf]

/-- Helper for C3: removeChildByType removes nothing when no child carries
the very type object passed, whatever the byte contents of the child types
are. -/
theorem Mpeg4Box.removeChildByTypeList_no_match (t : ByteVector) :
    ∀ l : List Mpeg4Box, (∀ c ∈ l, c.boxType.rid ≠ t.rid) →
      Mpeg4Box.removeChildByTypeList t l = l := by
  intro l
  induction l with
  | nil => intro _; rfl
  | cons x rest ih =>
    intro h
    have hx : tsIs x.boxType t = false := by
      simpa [tsIs] using h x (by simp)
    rw [Mpeg4Box.removeChildByTypeList.eq_def]
    simp only [hx, Bool.false_eq_true, if_false]
    rw [ih (fun c hc => h c (by simp [hc]))]

/-- Helper for C3: the inner loop of dataBoxesFromTypes reports no match
for a child whose type object is identical to none of the (4-byte)
requested types, whatever the byte contents are. -/
theorem AppleTag.typeMatches_false (box : Mpeg4Box) (r : Nat) :
    ∀ types : List ByteVector, (∀ bv ∈ types, bv.bytes.length = 4) →
    (∀ bv ∈ types, box.boxType.rid ≠ bv.rid) →
    AppleTag.typeMatches box r types = .ok false := by
  intro types
  induction types with
  | nil => intro _ _; rfl
  | cons bv bvs ih =>
    intro h4 hne
    have hfix : AppleTag.fixIdRO bv r = .ok bv := by
      simp [AppleTag.fixIdRO, Mpeg4Utils.fixId, h4 bv (by simp), ByteVector.makeReadOnly]
    have hts : tsIs bv box.boxType = false := by
      have := hne bv (by simp)
      simp [tsIs]
      omega
    rw [AppleTag.typeMatches, hfix]
    show (if tsIs bv box.boxType then Except.ok true else AppleTag.typeMatches box r bvs) = .ok false
    rw [hts]
    simp only [Bool.false_eq_true, if_false]
    exact ih (fun x hx => h4 x (by simp [hx])) (fun x hx => hne x (by simp [hx]))

/-- Helper for C3: dataBoxesFromTypes falls off its loop (returning
undefined) when no ilst child carries a type object identical to one of
the (4-byte) requested types, whatever the byte contents are. -/
theorem AppleTag.dataBoxesFromTypes_none (r : Nat) (types : List ByteVector)
    (h4 : ∀ bv ∈ types, bv.bytes.length = 4) :
    ∀ st : List Mpeg4Box, (∀ box ∈ st, ∀ bv ∈ types, box.boxType.rid ≠ bv.rid) →
    AppleTag.dataBoxesFromTypes r types st = .ok none := by
  intro st
  induction st with
  | nil => intro _; rfl
  | cons box rest ih =>
    intro h
    have htm := AppleTag.typeMatches_false box r types h4 (h box (by simp))
    rw [AppleTag.dataBoxesFromTypes, htm]
    show (if false = true then
        Except.ok (some (box.children.filter (fun c => c.cls == BoxCls.dataBox)))
      else AppleTag.dataBoxesFromTypes r types rest) = Except.ok none
    simp only [Bool.false_eq_true, if_false]
    exact ih (fun b hb bv hbv => h b (by simp [hb]) bv hbv)

/-- C3 amended.  The canonicalisation half of the claim holds: fixId keeps
a 4-byte identifier as the same object, prefixes 0xA9 to a 3-byte legacy
identifier (so the fixed form of alb carries exactly the bytes of the
interned copyright-alb constant), and yields undefined for any other
length.  The comparison half is amended: every box-type comparison of the
named operations, getChild, getChildren, removeChildByType and
dataBoxesFromTypes, matches by object identity of the type, not byte-wise:
a successful getChild or getChildren lookup returns only children whose
type object is the very object searched for; when no child carries that
object, getChild and getChildren yield undefined, removeChildByType
removes nothing, and dataBoxesFromTypes falls off its loop returning
undefined, regardless of the byte contents of the child types. -/
theorem claim_C3_amended_fixId_and_identity_matching :
    (∀ (v : ByteVector) (r : Nat), v.bytes.length = 4 → Mpeg4Utils.fixId v r = some v)
    ∧ (∀ (v : ByteVector) (r : Nat), v.bytes.length = 3 →
        Mpeg4Utils.fixId v r = some ⟨0xA9 :: v.bytes, r⟩)
    ∧ (∀ (v : ByteVector) (r : Nat), v.bytes.length ≠ 3 → v.bytes.length ≠ 4 →
        Mpeg4Utils.fixId v r = none)
    ∧ (∀ (r r2 : Nat), (Mpeg4Utils.fixId (ByteVector.fromString "alb" r) r2).map ByteVector.bytes
        = some Mpeg4BoxType.Alb.bytes)
    ∧ (∀ (b : Mpeg4Box) (t : ByteVector) (c : Mpeg4Box),
        Mpeg4Box.getChild b t = some c → c.boxType.rid = t.rid)
    ∧ (∀ (b : Mpeg4Box) (t : ByteVector),
        (∀ c ∈ b.children, c.boxType.rid ≠ t.rid) → Mpeg4Box.getChild b t = none)
    ∧ (∀ (b : Mpeg4Box) (t : ByteVector) (l : List Mpeg4Box),
        Mpeg4Box.getChildren b t = some l → ∀ c ∈ l, c.boxType.rid = t.rid)
    ∧ (∀ (b : Mpeg4Box) (t : ByteVector),
        (∀ c ∈ b.children, c.boxType.rid ≠ t.rid) → Mpeg4Box.getChildren b t = none)
    ∧ (∀ (t : ByteVector) (l : List Mpeg4Box),
        (∀ c ∈ l, c.boxType.rid ≠ t.rid) → Mpeg4Box.removeChildByTypeList t l = l)
    ∧ (∀ (r : Nat) (types : List ByteVector) (st : List Mpeg4Box),
        (∀ bv ∈ types, bv.bytes.length = 4) →
        (∀ box ∈ st, ∀ bv ∈ types, box.boxType.rid ≠ bv.rid) →
        AppleTag.dataBoxesFromTypes r types st = .ok none) := by
  refine ⟨?_, ?_, ?_, ?_, ?_, ?_, ?_, ?_, ?_, ?_⟩
  · intro v r h
    simp [Mpeg4Utils.fixId, h]
  · intro v r h
    simp [Mpeg4Utils.fixId, h]
  · intro v r h3 h4
    simp [Mpeg4Utils.fixId, h3, h4]
  · intro r r2
    rfl
  · intro b t c h
    have := List.find?_some h
    simpa [tsIs] using this
  · intro b t h
    apply List.find?_eq_none.mpr
    intro c hc
    simpa [tsIs] using h c hc
  · intro b t l h
    exact Mpeg4Box.getChildren_some_rid b t l h
  · intro b t h
    exact Mpeg4Box.getChildren_none b t h
  · intro t l h
    exact Mpeg4Box.removeChildByTypeList_no_match t l h
  · intro r types st h4 h
    exact AppleTag.dataBoxesFromTypes_none r types h4 st h

/-- C3 witness test box: a data box created by fromDataAndFlags, whose
type carries the bytes of data under a fresh allocation rid 101. -/
def c3FreshDataBox : Mpeg4Box := AppleDataBox.fromDataAndFlags (ByteVector.fromString "x" 0) 1 101

/-- C3 witness test box: an annotation whose only child is the byte-equal
but not identical data box. -/
def c3Parent : Mpeg4Box :=
  (AppleAnnotationBox.fromType Mpeg4BoxType.DASH).withChildren [c3FreshDataBox]

/-- C3 witness: the amended statement at concrete inputs: the interned
trkn constant passes through fixId unchanged; fixing the 3-byte alb yields
the bytes of the interned constant; on the annotation holding only the
byte-equal fresh data box, getChild and getChildren with the interned
Mpeg4BoxType.Data yield undefined, removeChildByType removes nothing, and
dataBoxesFromTypes returns undefined; getChildren with an identical type
object returns only identically-typed children. -/
theorem claim_C3_amended_witness :
    Mpeg4Utils.fixId Mpeg4BoxType.Trkn 5 = some Mpeg4BoxType.Trkn
    ∧ (Mpeg4Utils.fixId (ByteVector.fromString "alb" 100) 101).map ByteVector.bytes
        = some Mpeg4BoxType.Alb.bytes
    ∧ Mpeg4Box.getChild c3Parent Mpeg4BoxType.Data = none
    ∧ Mpeg4Box.getChildren c3Parent Mpeg4BoxType.Data = none
    ∧ Mpeg4Box.removeChildByTypeList Mpeg4BoxType.Data [c3FreshDataBox] = [c3FreshDataBox]
    ∧ AppleTag.dataBoxesFromTypes 300 [Mpeg4BoxType.Data] [c3FreshDataBox] = .ok none
    ∧ ∀ c ∈ [c3FreshDataBox], c.boxType.rid = (ByteVector.fromString "data" 101).rid := by
  have hne : ∀ c ∈ [c3FreshDataBox], c.boxType.rid ≠ Mpeg4BoxType.Data.rid := by
    intro c hc
    simp only [List.mem_singleton] at hc
    subst hc
    decide
  refine ⟨?_, ?_, ?_, ?_, ?_, ?_, ?_⟩
  · exact claim_C3_amended_fixId_and_identity_matching.1 Mpeg4BoxType.Trkn 5 (by rfl)
  · exact claim_C3_amended_fixId_and_identity_matching.2.2.2.1 100 101
  · exact claim_C3_amended_fixId_and_identity_matching.2.2.2.2.2.1 c3Parent Mpeg4BoxType.Data hne
  · exact claim_C3_amended_fixId_and_identity_matching.2.2.2.2.2.2.2.1 c3Parent Mpeg4BoxType.Data hne
  · exact claim_C3_amended_fixId_and_identity_matching.2.2.2.2.2.2.2.2.1 Mpeg4BoxType.Data
      [c3FreshDataBox] hne
  · exact claim_C3_amended_fixId_and_identity_matching.2.2.2.2.2.2.2.2.2 300 [Mpeg4BoxType.Data]
      [c3FreshDataBox] (by intro bv hbv; simp only [List.mem_singleton] at hbv; subst hbv; rfl)
      (by intro box hbox bv hbv
          simp only [List.mem_singleton] at hbox hbv
          subst hbox; subst hbv
          decide)
  · exact claim_C3_amended_fixId_and_identity_matching.2.2.2.2.2.2.1
      ((AppleAnnotationBox.fromType Mpeg4BoxType.DASH).withChildren [c3FreshDataBox])
      (ByteVector.fromString "data" 101) [c3FreshDataBox] (by rfl)

/-- C4 input: an ilst that already carries a trkn annotation with a proper
packed payload for track 1 of 0 (as the claim assumes an existing pair can
be updated). -/
def c4Existing : Mpeg4Box :=
  (AppleAnnotationBox.fromType Mpeg4BoxType.Trkn).withChildren
    [Mpeg4Box.mk .dataBox (ByteVector.fromString "data" 150) 0 0
      (some (ByteVector.fromByteArray [0, 0, 0, 1, 0, 0, 0, 0] 0)) []]

/-- C4.  The claim states the track pair is stored as the packed payload
0, index, total, 0 with ContainsData flags, that setting track 3 and
trackCount 12 stores 00 00 00 03 00 0C 00 00, that readers then return 3
and 12, and that getters return 0 when no atom is present.  In the code:
on a tag without a trkn atom, the track setter and getter both throw a
TypeError, because dataBoxesFromTypes falls off its loop returning
undefined and the getters iterate that value; on a tag with an existing
atom the setter succeeds but stores a data box created by
AppleDataBox.fromDataAndFlags, which drops the packed payload, so the
stored data field is undefined (not the claimed bytes) and the subsequent
trackCount setter (which first reads track) throws. -/
theorem claim_C4_track_pair_broken :
    AppleTag.setTrack [] 3 100 = .error ()
    ∧ AppleTag.trackGet [] 100 = .error ()
    ∧ (AppleTag.setTrack [c4Existing] 3 100).bind
        (fun st => AppleTag.setTrackCount st 12 200) = .error ()
    ∧ (AppleTag.setTrack [c4Existing] 3 100).map
        (fun st => st.map (fun b => b.children.map Mpeg4Box.data)) = .ok [[none]] := by
  refine ⟨rfl, rfl, rfl, rfl⟩

/-- C5 input: an ilst holding only a legacy gnre annotation whose data box
has ContainsData flags and the big-endian payload 00 0D (ID3 index 13,
Pop). -/
def c5GnreAnn : Mpeg4Box :=
  (AppleAnnotationBox.fromType Mpeg4BoxType.Gnre).withChildren
    [Mpeg4Box.mk .dataBox (ByteVector.fromString "data" 150) 0 0
      (some (ByteVector.fromByteArray [0, 13] 0)) []]

/-- C5.  The claim states the genres getter prefers the gen text atom and,
when it is absent, reads the gnre payload 00 0D as Pop; and that the
setter clears gnre and sets the text atom.  In the code the getter first
calls getText on the gen type; with no gen annotation present,
dataBoxesFromTypes returns undefined and the for-of loop in getText throws
a TypeError before the gnre fallback is ever reached.  The setter does
remove the gnre annotation and creates a gen annotation, but its data box
is created by AppleDataBox.fromDataAndFlags, which drops the payload, so
the gen atom holds an undefined data field rather than the text Rock, and
reading genres afterwards again throws. -/
theorem claim_C5_genre_indirection_broken :
    AppleTag.genresGet [c5GnreAnn] 100 = .error ()
    ∧ (AppleTag.genresSet [c5GnreAnn] ["Rock"] 100).bind
        (fun st => AppleTag.genresGet st 300) = .error ()
    ∧ (AppleTag.genresSet [c5GnreAnn] ["Rock"] 100).map
        (fun st => st.map (fun b => (b.boxType.bytes, b.children.map Mpeg4Box.data)))
      = .ok [(Mpeg4BoxType.Gen.bytes, [none])] := by
  refine ⟨rfl, rfl, rfl⟩

/-- C6.  For every chunk-offset table, size difference and threshold, the
update loop of renderUsingSizeDifference (both the stco and the co64
variant) maps every entry at least the threshold to the entry plus the
difference and keeps every other entry unchanged, preserving the table
length. -/
theorem claim_C6_chunk_offset_shift :
    ∀ (offsets : List Int) (sizeDifference after : Int) (i : Nat) (o : Int),
      offsets[i]? = some o →
        (IsoChunkOffsetBox.updateOffsets offsets sizeDifference after)[i]?
          = some (if after ≤ o then o + sizeDifference else o)
        ∧ (IsoChunkLargeOffsetBox.updateOffsets offsets sizeDifference after)[i]?
          = some (if after ≤ o then o + sizeDifference else o)
        ∧ (IsoChunkOffsetBox.updateOffsets offsets sizeDifference after).length = offsets.length
        ∧ (IsoChunkLargeOffsetBox.updateOffsets offsets sizeDifference after).length = offsets.length := by
  intro offsets sizeDifference after i o h
  refine ⟨?_, ?_, ?_, ?_⟩ <;>
    simp [IsoChunkOffsetBox.updateOffsets, IsoChunkLargeOffsetBox.updateOffsets, List.getElem?_map, h]

/-- C6 witness: the table 10, 50 with difference 7 and threshold 30 leaves
entry 0 at 10 and shifts entry 1 to 57. -/
theorem claim_C6_chunk_offset_shift_witness :
    (IsoChunkOffsetBox.updateOffsets [10, 50] 7 30)[1]? = some 57
    ∧ (IsoChunkOffsetBox.updateOffsets [10, 50] 7 30)[0]? = some 10 := by
  have h1 := (claim_C6_chunk_offset_shift [10, 50] 7 30 1 50 (by decide)).1
  have h0 := (claim_C6_chunk_offset_shift [10, 50] 7 30 0 10 (by decide)).1
  norm_num at h1 h0
  exact ⟨h1, h0⟩

/-- Helper for C7: no zero-size child is ever appended by loadChildren. -/
theorem Mpeg4Box.loadChildrenSizes_pos (szAt : Nat → Nat) :
    ∀ p e pr, pr ∈ Mpeg4Box.loadChildrenSizes szAt p e → pr.2 ≠ 0 := by
  intro p e
  induction p, e using Mpeg4Box.loadChildrenSizes.induct szAt with
  | case1 p e h hs =>
    intro pr hpr
    rw [Mpeg4Box.loadChildrenSizes] at hpr
    simp [h, hs] at hpr
  | case2 p e h hs ih =>
    intro pr hpr
    rw [Mpeg4Box.loadChildrenSizes] at hpr
    simp only [dif_pos h, dif_neg hs] at hpr
    rcases List.mem_cons.mp hpr with h1 | h2
    · subst h1; exact hs
    · exact ih pr h2
  | case3 p e h =>
    intro pr hpr
    rw [Mpeg4Box.loadChildrenSizes] at hpr
    simp [h] at hpr

/-- Helper for C7: the loadChildren loop performs at most one iteration per
remaining byte of the range, whatever the (possibly malformed) declared
sizes are; together with the totality of the definition this is the
termination bound. -/
theorem Mpeg4Box.loadChildrenSizes_len (szAt : Nat → Nat) :
    ∀ p e, (Mpeg4Box.loadChildrenSizes szAt p e).length ≤ e - p := by
  intro p e
  induction p, e using Mpeg4Box.loadChildrenSizes.induct szAt with
  | case1 p e h hs =>
    rw [Mpeg4Box.loadChildrenSizes]
    simp [h, hs]
  | case2 p e h hs ih =>
    rw [Mpeg4Box.loadChildrenSizes]
    simp only [dif_pos h, dif_neg hs, List.length_cons]
    omega
  | case3 p e h =>
    rw [Mpeg4Box.loadChildrenSizes]
    simp [h]

/-- Helper for C7: a zero declared size terminates loadChildren at once and
the zero-size box is not appended. -/
theorem Mpeg4Box.loadChildrenSizes_zero (szAt : Nat → Nat) :
    ∀ p e, p < e → szAt p = 0 → Mpeg4Box.loadChildrenSizes szAt p e = [] := by
  intro p e hp hz
  rw [Mpeg4Box.loadChildrenSizes]
  simp [hp, hz]

/-- Helper for C7: in the tag traversal of the parser, a box with declared
total size zero is still processed (here: an mdat records its bounds) and
then terminates the enclosing loop. -/
theorem Mpeg4FileParser.parseTagLoop_zero_mdat (file : List Nat) (e pos : Nat)
    (parents : List Nat) (st : ParseState) (h : Mpeg4BoxHeader) (hpos : pos < e)
    (hdec : Mpeg4BoxHeader.fromFileAndPosition file pos = .ok h)
    (hty : h.typeBytes = mdatBytes) (hz : h.totalBoxSize = 0) :
    Mpeg4FileParser.parseTagLoop file e pos parents st
      = .ok {st with mdatStart := pos, mdatEnd := pos + h.totalBoxSize} := by
  have h1 : ¬ (mdatBytes = moovBytes) := by decide
  have h2 : ¬ (mdatBytes = mdiaBytes ∨ mdatBytes = minfBytes ∨ mdatBytes = stblBytes ∨ mdatBytes = trakBytes) := by
    decide
  have h3 : ¬ (mdatBytes = udtaBytes) := by decide
  rw [Mpeg4FileParser.parseTagLoop]
  simp only [if_pos hpos]
  split
  · next m heq => rw [hdec] at heq; exact absurd heq (by simp)
  · next h' heq =>
    rw [hdec] at heq
    injection heq with heq
    subst heq
    simp [hty, h1, h2, h3, hz]

/-- C7.  Every box-sequence traversal steps by the declared total size and
stops at a zero-size box, so it terminates even on malformed input: for
loadChildren, no child in the result has size zero, the number of children
is bounded by the width of the range (each iteration advances by at least
one byte), and a zero-size box at the current position ends the loop with
the box not appended; for the tag traversal of the parser, a zero-size box
(here an mdat) is processed and then terminates the enclosing loop.  The
loop models are total functions defined by well-founded recursion on the
remaining range, which is the termination argument itself. -/
theorem claim_C7_traversal_zero_size_terminates :
    (∀ (szAt : Nat → Nat) (p e : Nat) (pr : Nat × Nat),
        pr ∈ Mpeg4Box.loadChildrenSizes szAt p e → pr.2 ≠ 0)
    ∧ (∀ (szAt : Nat → Nat) (p e : Nat),
        (Mpeg4Box.loadChildrenSizes szAt p e).length ≤ e - p)
    ∧ (∀ (szAt : Nat → Nat) (p e : Nat), p < e → szAt p = 0 →
        Mpeg4Box.loadChildrenSizes szAt p e = [])
    ∧ (∀ (file : List Nat) (e pos : Nat) (parents : List Nat) (st : ParseState)
        (h : Mpeg4BoxHeader), pos < e →
        Mpeg4BoxHeader.fromFileAndPosition file pos = .ok h →
        h.typeBytes = mdatBytes → h.totalBoxSize = 0 →
        Mpeg4FileParser.parseTagLoop file e pos parents st
          = .ok {st with mdatStart := pos, mdatEnd := pos + h.totalBoxSize}) := by
  refine ⟨?_, ?_, ?_, ?_⟩
  · intro szAt p e pr h
    exact Mpeg4Box.loadChildrenSizes_pos szAt p e pr h
  · intro szAt p e
    exact Mpeg4Box.loadChildrenSizes_len szAt p e
  · intro szAt p e hp hz
    exact Mpeg4Box.loadChildrenSizes_zero szAt p e hp hz
  · intro file e pos parents st h hpos hdec hty hz
    exact Mpeg4FileParser.parseTagLoop_zero_mdat file e pos parents st h hpos hdec hty hz

/-- C7 witness file: a single mdat box with the extended (largesize)
header declaring total size zero. -/
def c7File : List Nat := [0, 0, 0, 1] ++ encodeStr "mdat" ++ [0, 0, 0, 0, 0, 0, 0, 0]

/-- C7 witness: the bound and the zero-size cases at concrete inputs, and
the parser loop on the concrete zero-size mdat file. -/
theorem claim_C7_traversal_zero_size_terminates_witness :
    Mpeg4Box.loadChildrenSizes (fun _ => 0) 0 10 = []
    ∧ (Mpeg4Box.loadChildrenSizes (fun _ => 5) 0 10).length ≤ 10
    ∧ Mpeg4FileParser.parseTagLoop c7File 16 0 [] {}
        = .ok {mdatStart := 0, mdatEnd := 0} := by
  refine ⟨?_, ?_, ?_⟩
  · exact claim_C7_traversal_zero_size_terminates.2.2.1 (fun _ => 0) 0 10 (by decide) rfl
  · simpa using claim_C7_traversal_zero_size_terminates.2.1 (fun _ => 5) 0 10
  · have := claim_C7_traversal_zero_size_terminates.2.2.2 c7File 16 0 [] {}
      ⟨16, 0, mdatBytes⟩ (by decide) (by rfl) rfl rfl
    simpa using this

/-- C8.  Parser construction decodes the header at position 0 and compares
the decoded type string with ftyp: a file whose first box is not ftyp makes
the constructor throw, and since the throw happens inside the constructor
no parser object exists (the error value carries no state); a file whose
first box decodes with type ftyp constructs the parser holding that first
header. -/
theorem claim_C8_constructor_requires_ftyp :
    ∀ (file : TFile) (h : Mpeg4BoxHeader),
      Mpeg4BoxHeader.fromFileAndPosition file.bytes 0 = .ok h →
        (decodeStr h.typeBytes ≠ "ftyp" →
          Mpeg4FileParser.mkParser file = .error "File does not start with ftyp box.")
        ∧ (decodeStr h.typeBytes = "ftyp" →
          Mpeg4FileParser.mkParser file = .ok ⟨file, h⟩) := by
  intro file h hd
  constructor
  · intro hne
    simp [Mpeg4FileParser.mkParser, hd, hne]
  · intro heq
    simp [Mpeg4FileParser.mkParser, hd, heq]

/-- C8 witness file beginning with an ftyp box. -/
def c8GoodFile : TFile := ⟨[0, 0, 0, 16] ++ encodeStr "ftyp" ++ [0, 0, 0, 0, 0, 0, 0, 0], false, none⟩

/-- C8 witness file beginning with a free box instead of ftyp. -/
def c8BadFile : TFile := ⟨[0, 0, 0, 16] ++ encodeStr "free" ++ [0, 0, 0, 0, 0, 0, 0, 0], false, none⟩

/-- C8 witness: construction succeeds on the good file and throws on the
bad one. -/
theorem claim_C8_constructor_requires_ftyp_witness :
    Mpeg4FileParser.mkParser c8GoodFile = .ok ⟨c8GoodFile, ⟨8, 16, encodeStr "ftyp"⟩⟩
    ∧ Mpeg4FileParser.mkParser c8BadFile = .error "File does not start with ftyp box." := by
  constructor
  · exact (claim_C8_constructor_requires_ftyp c8GoodFile ⟨8, 16, encodeStr "ftyp"⟩ (by rfl)).2 (by rfl)
  · exact (claim_C8_constructor_requires_ftyp c8BadFile ⟨8, 16, encodeStr "free"⟩ (by rfl)).1 (by decide)

/-- C9 counterexample file: a well-formed ftyp box of 16 bytes followed by
3 stray bytes, so that the parse loops decode at position 16 and fail. -/
def c9File : TFile := ⟨[0, 0, 0, 16] ++ encodeStr "ftyp" ++ [0, 0, 0, 0, 0, 0, 0, 0] ++ [1, 2, 3], false, none⟩

/-- C9 counterexample parser, as produced by the constructor on c9File. -/
def c9Ctx : ParserCtx := ⟨c9File, ⟨8, 16, encodeStr "ftyp"⟩⟩

/-- Helper for C9: on the c9Ctx parser the chunk-offset body throws with
the end-of-file message (decoding fails at position 16 of the 19-byte
file). -/
theorem c9_chunkBody_error :
    Mpeg4FileParser.parseChunkOffsetsBody c9Ctx
      = .error "Cannot read box header at end of file." := by
  rw [Mpeg4FileParser.parseChunkOffsetsBody, Mpeg4FileParser.parseChunkOffsetsLoop]
  split
  · split
    · next m heq =>
      rw [show c9Ctx.firstHeader.totalBoxSize = 16 from rfl] at heq
      rw [show Mpeg4BoxHeader.fromFileAndPosition c9Ctx.file.bytes 16
          = .error "Cannot read box header at end of file." from rfl] at heq
      injection heq with heq
      rw [heq]
    · next h' heq =>
      rw [show c9Ctx.firstHeader.totalBoxSize = 16 from rfl] at heq
      rw [show Mpeg4BoxHeader.fromFileAndPosition c9Ctx.file.bytes 16
          = .error "Cannot read box header at end of file." from rfl] at heq
      exact Except.noConfusion heq
  · next hc => exact absurd (by decide : c9Ctx.firstHeader.totalBoxSize < c9Ctx.file.bytes.length) hc

/-- C9 counterexample.  The claim states that each of the four parse entry
points marks the file corrupt using the message of the caught exception as
the reason.  For parseChunkOffsets this fails: its catch block reads
e.Message (part_001 line 222), a property that does not exist on an Error
object, so markAsCorrupt receives undefined.  Concretely: on c9Ctx the
body throws with the end-of-file message, the entry point does mark the
file corrupt, but the recorded reason is undefined, not the message. -/
theorem claim_C9_counterexample :
    Mpeg4FileParser.mkParser c9File = .ok c9Ctx
    ∧ Mpeg4FileParser.parseChunkOffsetsBody c9Ctx
        = .error "Cannot read box header at end of file."
    ∧ (Mpeg4FileParser.parseChunkOffsets c9Ctx).1.file.corrupt = true
    ∧ (Mpeg4FileParser.parseChunkOffsets c9Ctx).1.file.corruptReason = none := by
  refine ⟨rfl, c9_chunkBody_error, ?_, ?_⟩ <;>
    simp [Mpeg4FileParser.parseChunkOffsets, c9_chunkBody_error, TFile.markAsCorrupt]

/-- C9 amended.  All four parse entry points catch every exception of
their bodies and never rethrow (each entry point is a total function of
the parser context); parseBoxHeaders, parseTag and parseTagAndProperties
mark the file corrupt with the message of the exception as the reason,
while parseChunkOffsets, because its catch block reads the nonexistent
e.Message property, marks the file corrupt with an undefined reason,
discarding the message; when the body succeeds no corruption mark is
made. -/
theorem claim_C9_amended_catch_blocks :
    ∀ ctx : ParserCtx,
      (∀ st, Mpeg4FileParser.parseBoxHeadersBody ctx = .ok st →
        Mpeg4FileParser.parseBoxHeaders ctx = (ctx, st))
      ∧ (∀ m, Mpeg4FileParser.parseBoxHeadersBody ctx = .error m →
        Mpeg4FileParser.parseBoxHeaders ctx
          = ({ctx with file := ctx.file.markAsCorrupt (some m)}, {}))
      ∧ (∀ st, Mpeg4FileParser.parseTagBody ctx = .ok st →
        Mpeg4FileParser.parseTag ctx = (ctx, st))
      ∧ (∀ m, Mpeg4FileParser.parseTagBody ctx = .error m →
        Mpeg4FileParser.parseTag ctx
          = ({ctx with file := ctx.file.markAsCorrupt (some m)}, {}))
      ∧ (∀ st, Mpeg4FileParser.parseTagAndPropsBody ctx = .ok st →
        Mpeg4FileParser.parseTagAndProperties ctx = (ctx, st))
      ∧ (∀ m, Mpeg4FileParser.parseTagAndPropsBody ctx = .error m →
        Mpeg4FileParser.parseTagAndProperties ctx
          = ({ctx with file := ctx.file.markAsCorrupt (some m)}, {}))
      ∧ (∀ st, Mpeg4FileParser.parseChunkOffsetsBody ctx = .ok st →
        Mpeg4FileParser.parseChunkOffsets ctx = (ctx, st))
      ∧ (∀ m, Mpeg4FileParser.parseChunkOffsetsBody ctx = .error m →
        Mpeg4FileParser.parseChunkOffsets ctx
          = ({ctx with file := ctx.file.markAsCorrupt none}, {})) := by
  intro ctx
  refine ⟨?_, ?_, ?_, ?_, ?_, ?_, ?_, ?_⟩ <;> intro x hx
  · simp [Mpeg4FileParser.parseBoxHeaders, hx]
  · simp [Mpeg4FileParser.parseBoxHeaders, hx]
  · simp [Mpeg4FileParser.parseTag, hx]
  · simp [Mpeg4FileParser.parseTag, hx]
  · simp [Mpeg4FileParser.parseTagAndProperties, hx]
  · simp [Mpeg4FileParser.parseTagAndProperties, hx]
  · simp [Mpeg4FileParser.parseChunkOffsets, hx]
  · simp [Mpeg4FileParser.parseChunkOffsets, hx]

/-- C9 amended witness: at the concrete failing context c9Ctx the
parseChunkOffsets entry point marks the file corrupt with an undefined
reason. -/
theorem claim_C9_amended_catch_blocks_witness :
    Mpeg4FileParser.parseChunkOffsets c9Ctx
      = ({c9Ctx with file := c9Ctx.file.markAsCorrupt none}, {}) := by
  exact (claim_C9_amended_catch_blocks c9Ctx).2.2.2.2.2.2.2
    "Cannot read box header at end of file." c9_chunkBody_error

/-- C10.  AppleDataBox.fromDataAndFlags never stores its data argument:
the box it returns carries a freshly allocated type with the bytes of
data, version 0 and the given flags, and an undefined data payload; in
consequence every data box built by the collection loop of
setDataFromTypeDataCollectionAndFlags carries an undefined payload until
its data or text member is assigned afterwards. -/
theorem claim_C10_fromDataAndFlags_drops_data :
    (∀ (d : ByteVector) (flags r : Nat),
      AppleDataBox.fromDataAndFlags d flags r
        = Mpeg4Box.mk .dataBox (ByteVector.fromString "data" r) 0 flags none [])
    ∧ (∀ (d : ByteVector) (flags r : Nat), (AppleDataBox.fromDataAndFlags d flags r).data = none)
    ∧ (∀ (flags r : Nat) (dc : List ByteVector),
      (AppleTag.buildDataBoxes flags r dc).all (fun b => b.data.isNone) = true) := by
  refine ⟨fun d flags r => rfl, fun d flags r => rfl, ?_⟩
  intro flags r dc
  induction dc generalizing r with
  | nil => rfl
  | cons d ds ih =>
    have h2 := ih (r + 1)
    simp only [AppleTag.buildDataBoxes, List.all_cons, h2, Bool.and_true]
    rfl
